import Mathlib

/-!
Verification of the blaze accumulator-and-spill subsystem against its
natural-language specification.

Shallow embedding of:
  src/native-engine/datafusion-ext-plans/src/agg/collect_list.rs
  src/native-engine/datafusion-ext-plans/src/agg/collect_set.rs
  src/native-engine/datafusion-ext-plans/src/agg/first.rs
  src/native-engine/datafusion-ext-plans/src/memmgr/onheap_spill.rs

Scalar values of the argument type are modelled by an arbitrary type `V`
(null is `Option.none`).  The helper crate `agg/acc.rs` (AggDynList,
AggDynSet, AccumStateRow internals) and `agg/mod.rs` (WithMemTracking,
default_final_merge_with_addr) are not among the provided sources; the
definitions standing in for them are marked `Modelled from the spec:` and
follow the words of the specification.
-/

set_option maxHeartbeats 1000000

/-- Modelled from the spec: `AggDynList` (defined in agg/acc.rs, absent from
the provided sources) is an append-only ordered sequence of scalar values;
merge is concatenation (first operand, then second), draining the second
operand. -/
structure AggDynList (V : Type) where
  values : List V
deriving Repr, DecidableEq

variable {V : Type}

/-- Modelled from the spec: `AggDynList::default()` is the empty list. -/
def AggDynList.empty : AggDynList V := ⟨[]⟩

/-- Modelled from the spec: `AggDynList::append` pushes one value at the end. -/
def AggDynList.append (l : AggDynList V) (v : V) : AggDynList V :=
  ⟨l.values ++ [v]⟩

/-- Modelled from the spec: `AggDynList::merge` concatenates the second
operand after the first and leaves the second drained.  Returns the pair
(merged first operand, drained second operand). -/
def AggDynList.merge (w v : AggDynList V) : AggDynList V × AggDynList V :=
  (⟨w.values ++ v.values⟩, ⟨[]⟩)

/-- Modelled from the spec: `AggDynList::into_values` moves the stored values
out. -/
def AggDynList.intoValues (l : AggDynList V) : List V :=
  l.values

/-- From collect_list.rs, `AggCollectList::partial_update` (lines 106-124):
nothing happens for a null input; for a valid input the dynamic slot is
created empty on first use and the value is appended. -/
def AggCollectList.partialUpdate (acc : Option (AggDynList V)) (value : Option V) :
    Option (AggDynList V) :=
  match value with
  | none => acc
  | some v =>
    match acc with
    | some l => some (l.append v)
    | none => some (AggDynList.empty.append v)

/-- From collect_list.rs, `AggCollectList::partial_update_all` (lines
126-142): the dynamic slot is created unconditionally (before any validity
check), then every valid value of the batch is appended in row order. -/
def AggCollectList.partialUpdateAll (acc : Option (AggDynList V)) (values : List (Option V)) :
    Option (AggDynList V) :=
  let l := acc.getD AggDynList.empty
  some (values.foldl
    (fun l v => match v with | some x => l.append x | none => l) l)

/-- From collect_list.rs, `AggCollectList::partial_merge` (lines 144-161).
The match has two arms: when both slots hold a list the lists are merged in
place; in every other case the target slot is overwritten with
`std::mem::take` of the merging slot (which also fires when the target slot
is occupied and the merging slot is empty, replacing the target with `None`).
Returns (new target slot, new merging slot). -/
def AggCollectList.partialMerge (w v : Option (AggDynList V)) :
    Option (AggDynList V) × Option (AggDynList V) :=
  match w, v with
  | some wl, some vl =>
    let m := wl.merge vl
    (some m.1, some m.2)
  | _, v => (v, none)

/-- From collect_list.rs, `AggCollectList::final_merge` (lines 163-179):
`std::mem::take` of the slot; a present list becomes a non-null list value of
its elements, an absent slot becomes a null list.  Returns (result, emptied
slot); `none` in the first component is the null list. -/
def AggCollectList.finalMerge (acc : Option (AggDynList V)) :
    Option (List V) × Option (AggDynList V) :=
  match acc with
  | some l => (some l.intoValues, none)
  | none => (none, none)

/-- A fresh accumulator folded over a sequence of inputs via
`AggCollectList.partialUpdate`, one call per input row, in row order. -/
def collectListFold (xs : List (Option V)) : Option (AggDynList V) :=
  xs.foldl AggCollectList.partialUpdate none

theorem collectListFold_some (xs : List (Option V)) :
    ∀ l : List V,
      xs.foldl AggCollectList.partialUpdate (some ⟨l⟩) =
        some ⟨l ++ xs.filterMap id⟩ := by
  induction xs with
  | nil => intro l; simp
  | cons x xs ih =>
    intro l
    cases x with
    | none =>
      simpa [AggCollectList.partialUpdate] using ih l
    | some v =>
      simp only [List.foldl_cons, AggCollectList.partialUpdate, AggDynList.append,
        List.filterMap_cons_some, id]
      rw [ih (l ++ [v])]
      simp

theorem collectListFold_eq (xs : List (Option V)) :
    collectListFold xs =
      match xs.filterMap id with
      | [] => none
      | l => some ⟨l⟩ := by
  induction xs with
  | nil => rfl
  | cons x xs ih =>
    cases x with
    | none =>
      simpa [collectListFold, AggCollectList.partialUpdate] using ih
    | some v =>
      simp only [collectListFold, List.foldl_cons, AggCollectList.partialUpdate,
        AggDynList.empty, AggDynList.append, List.nil_append]
      rw [collectListFold_some xs [v]]
      simp

/-- Claim C1: folding any sequence of inputs into a fresh CollectList
accumulator via partial_update and then calling final_merge yields exactly
the non-null values of the sequence in append order, and the null list when
no valid value was ever appended. -/
theorem collect_list_fold_final (xs : List (Option V)) :
    (AggCollectList.finalMerge (collectListFold xs)).1 =
      match xs.filterMap id with
      | [] => none
      | l => some l := by
  rw [collectListFold_eq]
  cases h : xs.filterMap id with
  | nil => rfl
  | cons a l => rfl

/-- Claim C8: evaluating the code at the failing input.  Accumulator A is
built from S1 = [5] (so its slot holds the list [5]); accumulator B is built
from S2 = [NULL] (so its slot was never initialized).  partial_merge(A, B)
falls into the catch-all arm `*w = std::mem::take(v)` which replaces the
occupied slot of A with `None`, and final_merge then returns the null list
instead of the concatenation [5]. -/
theorem collect_list_merge_drop_bug_eval :
    (AggCollectList.finalMerge
      (AggCollectList.partialMerge
        (collectListFold ([some 5] : List (Option Int)))
        (collectListFold [none])).1).1 = none ∧
    (collectListFold ([some 5] : List (Option Int))) = some ⟨[5]⟩ := by
  constructor
  · rfl
  · rfl

/-- From first.rs: the slots AggFirst owns in an AccumStateRow for a
fixed-width data type — the fixed value slot with its validity bit
(`accum_state_val_addr_value`) and the touched flag, stored as the validity
bit of a second slot (`accum_state_val_addr_valid`). -/
structure FirstFixedAcc (A : Type) where
  value : A
  valid : Bool
  touched : Bool
deriving Repr, DecidableEq

/-- From first.rs: the slots AggFirst owns for a string/binary/generic data
type — one dynamic slot plus the touched flag. -/
structure FirstDynAcc (B : Type) where
  slot : Option B
  touched : Bool
deriving Repr, DecidableEq

variable {A B : Type}

/-- From first.rs, `AggFirst::partial_update` (lines 125-136) together with
the fixed-width updater of `get_partial_updater` (macro fn_fixed, lines
169-181): on an untouched row a valid input stores value and validity, and
the touched flag is set whether or not the input was valid; on a touched row
the call is a no-op. -/
def AggFirst.partialUpdateFixed (acc : FirstFixedAcc A) (v : Option A) :
    FirstFixedAcc A :=
  if acc.touched then acc
  else
    match v with
    | some x => { value := x, valid := true, touched := true }
    | none => { acc with touched := true }

/-- From first.rs, `AggFirst::partial_update` together with the
string/binary/generic updater of `get_partial_updater` (lines 202-237): on an
untouched row a valid input boxes the value into the dynamic slot and its
reported size is added to the memory counter; the touched flag is set either
way.  Returns (new row, memory delta); `sz` is the boxed mem_size. -/
def AggFirst.partialUpdateDyn (sz : B → Nat) (acc : FirstDynAcc B) (v : Option B) :
    FirstDynAcc B × Int :=
  if acc.touched then (acc, 0)
  else
    match v with
    | some x => ({ slot := some x, touched := true }, (sz x : Int))
    | none => ({ acc with touched := true }, 0)

/-- From first.rs, the fixed-width arm of `get_partial_buf_merger` (macro
fn_fixed, lines 246-261, and the identical Boolean arm): when the second row
is touched, its valid value (if any) is copied into the first row and the
first row is marked touched — the touched state of the first row is never
consulted.  The second row is not modified. -/
def AggFirst.partialMergeFixed (a b : FirstFixedAcc A) : FirstFixedAcc A :=
  if b.touched then
    if b.valid then { value := b.value, valid := true, touched := true }
    else { a with touched := true }
  else a

/-- From first.rs, the string/binary/generic arm of `get_partial_buf_merger`
(lines 293-305): when the second row is touched and the first is not, the
dynamic slot is moved from the second row into the first (the touched flag of
the first row is NOT set by this arm); otherwise, when the second row is
touched, the size of its dynamic value (if any) is subtracted from the memory
counter while the value itself stays in place, to be dropped with the row.
Returns (new first row, new second row, memory delta). -/
def AggFirst.partialMergeDyn (sz : B → Nat) (a b : FirstDynAcc B) :
    FirstDynAcc B × FirstDynAcc B × Int :=
  if b.touched ∧ ¬ a.touched then
    ({ a with slot := b.slot }, { b with slot := none }, 0)
  else
    if b.touched then
      match b.slot with
      | some v => (a, b, -(sz v : Int))
      | none => (a, b, 0)
    else (a, b, 0)

/-- Modelled from the spec: `default_final_merge_with_addr` (agg/mod.rs,
absent from the provided sources) reads the value slot of the row — the
stored value when the validity bit is set, null otherwise — and resets the
slot. -/
def AggFirst.finalMergeFixed (acc : FirstFixedAcc A) : Option A :=
  if acc.valid then some acc.value else none

/-- A fresh AggFirst accumulator for a fixed-width type: value slot null
(raw value `d`, validity bit clear), touched flag clear. -/
def firstFixedInit (d : A) : FirstFixedAcc A := ⟨d, false, false⟩

/-- A fresh AggFirst accumulator folded over a sequence of inputs via
partial_update, one call per row, in row order. -/
def firstFixedFold (d : A) (xs : List (Option A)) : FirstFixedAcc A :=
  xs.foldl AggFirst.partialUpdateFixed (firstFixedInit d)

/-- Claim C3: for First, the first folded row wins unconditionally.  Folding
[NULL, 5, 7] yields NULL from final_merge and folding [5, NULL, 7] yields 5;
the first partial_update sets the touched flag whatever the nullness of the
input (on both the fixed-width and the dynamic path), and any partial_update
on a touched row is a no-op (on both paths). -/
theorem first_accumulator_first_wins :
    (AggFirst.finalMergeFixed (firstFixedFold (0 : Int) [none, some 5, some 7]) = none)
    ∧ (AggFirst.finalMergeFixed (firstFixedFold (0 : Int) [some 5, none, some 7]) = some 5)
    ∧ (∀ (acc : FirstFixedAcc Int) (v : Option Int), acc.touched = false →
        (AggFirst.partialUpdateFixed acc v).touched = true)
    ∧ (∀ (sz : Int → Nat) (acc : FirstDynAcc Int) (v : Option Int), acc.touched = false →
        (AggFirst.partialUpdateDyn sz acc v).1.touched = true)
    ∧ (∀ (acc : FirstFixedAcc Int) (v : Option Int), acc.touched = true →
        AggFirst.partialUpdateFixed acc v = acc)
    ∧ (∀ (sz : Int → Nat) (acc : FirstDynAcc Int) (v : Option Int), acc.touched = true →
        AggFirst.partialUpdateDyn sz acc v = (acc, 0)) := by
  refine ⟨rfl, rfl, ?_, ?_, ?_, ?_⟩
  · intro acc v h
    cases v <;> simp [AggFirst.partialUpdateFixed, h]
  · intro sz acc v h
    cases v <;> simp [AggFirst.partialUpdateDyn, h]
  · intro acc v h
    simp [AggFirst.partialUpdateFixed, h]
  · intro sz acc v h
    simp [AggFirst.partialUpdateDyn, h]

/-- Claim C3, witness: the universally quantified parts of
`first_accumulator_first_wins` instantiated at concrete rows. -/
theorem first_accumulator_first_wins_witness :
    ((AggFirst.partialUpdateFixed (⟨9, true, false⟩ : FirstFixedAcc Int) none).touched = true)
    ∧ (AggFirst.partialUpdateFixed (⟨3, true, true⟩ : FirstFixedAcc Int) (some 8) = ⟨3, true, true⟩)
    ∧ (AggFirst.partialUpdateDyn (fun _ => 4) (⟨some 3, true⟩ : FirstDynAcc Int) (some 8)
        = (⟨some 3, true⟩, 0)) :=
  ⟨first_accumulator_first_wins.2.2.1 ⟨9, true, false⟩ none rfl,
   first_accumulator_first_wins.2.2.2.2.1 ⟨3, true, true⟩ (some 8) rfl,
   first_accumulator_first_wins.2.2.2.2.2 (fun _ => 4) ⟨some 3, true⟩ (some 8) rfl⟩

/-- Claim C2: evaluating the code at the failing input.  Fixed-width path
(Int64-like): with both rows touched and both valid — a holding 5, b holding
7 — the merger copies the value of b over the value of a, so a ends holding 7
where the claim requires 5 to be kept.  Dynamic path: with b touched and a
untouched, a receives the dynamic value of b but its touched flag stays
false, where the claim requires a to adopt the touched flag as well. -/
theorem first_merge_bug_eval :
    (AggFirst.partialMergeFixed (⟨5, true, true⟩ : FirstFixedAcc Int) ⟨7, true, true⟩).value = 7
    ∧ ((AggFirst.partialMergeFixed (⟨5, true, true⟩ : FirstFixedAcc Int) ⟨7, true, true⟩).value ≠ 5)
    ∧ (AggFirst.partialMergeDyn (fun _ => 1) (⟨none, false⟩ : FirstDynAcc Int)
        ⟨some 3, true⟩).1.slot = some 3
    ∧ (AggFirst.partialMergeDyn (fun _ => 1) (⟨none, false⟩ : FirstDynAcc Int)
        ⟨some 3, true⟩).1.touched = false := by
  refine ⟨rfl, by decide, rfl, rfl⟩

/-- Modelled from the spec: `OptimizedSet` (agg/acc.rs, absent from the
provided sources) — a deduplicated collection that internally starts as a
small inline vector and switches to a hash-based representation once a size
threshold is crossed.  The small vector may hold duplicates during the growth
phase (the spec leaves incremental de-duplication open, and final_merge in
collect_set.rs runs a de-duplicating pass over it); the hash-based
representation is kept duplicate-free. -/
inductive OptimizedSet (V : Type) where
  | smallVec : List V → OptimizedSet V
  | hashed : List V → OptimizedSet V
deriving Repr, DecidableEq

/-- Insert into a duplicate-free list, keeping it duplicate-free. -/
def dedupInsert [DecidableEq V] (l : List V) (v : V) : List V :=
  if v ∈ l then l else l ++ [v]

/-- Modelled from the spec: the size threshold at which the small inline
vector is promoted to the hash-based representation (the exact bound is
unspecified; any fixed positive bound). -/
def smallVecCap : Nat := 8

/-- The elements currently stored, whatever the representation. -/
def OptimizedSet.elems : OptimizedSet V → List V
  | .smallVec l => l
  | .hashed l => l

/-- Modelled from the spec: each dynamic container variant reports an
approximate heap byte footprint; modelled as one unit per stored element. -/
def OptimizedSet.memSize : OptimizedSet V → Nat :=
  fun s => s.elems.length

/-- Modelled from the spec: `AggDynSet::append` — push into the small vector,
promoting (with de-duplication) once the threshold is crossed; insert
directly when already hash-based. -/
def OptimizedSet.append [DecidableEq V] : OptimizedSet V → V → OptimizedSet V
  | .smallVec l, v =>
    let l2 := l ++ [v]
    if smallVecCap < l2.length then .hashed (l2.foldl dedupInsert [])
    else .smallVec l2
  | .hashed l, v => .hashed (dedupInsert l v)

/-- Modelled from the spec: `AggDynSet::merge` — union with automatic
promotion, draining the second operand. -/
def OptimizedSet.mergeSets [DecidableEq V] (w v : OptimizedSet V) : OptimizedSet V :=
  .hashed (v.elems.foldl dedupInsert (w.elems.foldl dedupInsert []))

/-- The state a CollectSet aggregate acts on: the dynamic slot of each
accumulator row it touches, plus the memory counter of the aggregate
(`mem_used_tracker`; Modelled from the spec as a plain integer counter since
WithMemTracking of agg/mod.rs is absent from the provided sources). -/
structure CSState (V : Type) where
  rows : List (Option (OptimizedSet V))
  memUsed : Int
deriving Repr, DecidableEq

/-- The sum of the self-reported sizes of all live set containers. -/
def CSState.liveMemSum (st : CSState V) : Int :=
  (st.rows.map (fun r => match r with
    | some s => (s.memSize : Int)
    | none => 0)).sum

/-- From collect_set.rs, `AggCollectSet::partial_update` (lines 109-129):
nothing for a null input; otherwise get-or-create the set, read its size,
append, read the new size and add the difference to the counter. -/
def AggCollectSet.partialUpdate [DecidableEq V] (st : CSState V) (i : Nat)
    (value : Option V) : CSState V :=
  match value with
  | none => st
  | some v =>
    let s := (st.rows.getD i none).getD (.smallVec [])
    let memUsedOld := s.memSize
    let s2 := s.append v
    { rows := st.rows.set i (some s2),
      memUsed := st.memUsed + ((s2.memSize : Int) - memUsedOld) }

/-- From collect_set.rs, `AggCollectSet::partial_update_all` (lines 131-149):
the slot is created unconditionally, the size read once, every valid value of
the batch appended, and the overall difference added to the counter. -/
def AggCollectSet.partialUpdateAll [DecidableEq V] (st : CSState V) (i : Nat)
    (values : List (Option V)) : CSState V :=
  let s := (st.rows.getD i none).getD (.smallVec [])
  let memUsedOld := s.memSize
  let s2 := values.foldl
    (fun s v => match v with | some x => s.append x | none => s) s
  { rows := st.rows.set i (some s2),
    memUsed := st.memUsed + ((s2.memSize : Int) - memUsedOld) }

/-- From collect_set.rs, `AggCollectSet::partial_merge` (lines 151-171): when
both slots hold a set, merge in place and add (merged size - both old sizes)
to the counter, the merging slot keeping a drained set; in every other case
the target slot is overwritten with `std::mem::take` of the merging slot and
the counter is not touched — including the case of an occupied target and an
empty merging slot, where the target container is dropped with no
accounting. -/
def AggCollectSet.partialMerge [DecidableEq V] (st : CSState V) (i j : Nat) :
    CSState V :=
  match st.rows.getD i none, st.rows.getD j none with
  | some w, some v =>
    let memUsedW := w.memSize
    let memUsedV := v.memSize
    let m := w.mergeSets v
    { rows := (st.rows.set i (some m)).set j (some (.hashed [])),
      memUsed := st.memUsed + ((m.memSize : Int) - (memUsedW + memUsedV)) }
  | _, v => { rows := (st.rows.set i v).set j none, memUsed := st.memUsed }

/-- From collect_set.rs, `AggCollectSet::final_merge` (lines 173-200):
`std::mem::take` of the slot; a present container has its size subtracted
from the counter and its contents emitted after a de-duplicating pass (via a
HashSet for the small-vector representation, as stored for the hash-based
one); an absent slot becomes the null list.  The emitted collection is
returned as a list whose order is irrelevant to the claims (viewed as an
unordered collection). -/
def AggCollectSet.finalMerge [DecidableEq V] (st : CSState V) (i : Nat) :
    Option (List V) × CSState V :=
  match st.rows.getD i none with
  | some w =>
    let out := match w with
      | .smallVec l => l.foldl dedupInsert []
      | .hashed l => l
    (some out,
      { rows := st.rows.set i none, memUsed := st.memUsed - (w.memSize : Int) })
  | none => (none, { rows := st.rows.set i none, memUsed := st.memUsed })

/-- Claim C4: evaluating the code at the failing input.  Two fresh rows;
partial_update(row 0, 1) brings the counter to 1 (the size of the one live
container); partial_merge(row 0, row 1) with row 1 never updated falls into
the catch-all arm, which drops the container of row 0 without touching the
counter: the counter stays 1 while no live container remains, so it no
longer equals the sum of the self-reported sizes of the live containers. -/
theorem collect_set_mem_counter_bug_eval :
    (AggCollectSet.partialMerge
      (AggCollectSet.partialUpdate (⟨[none, none], 0⟩ : CSState Nat) 0 (some 1))
      0 1).memUsed = 1
    ∧ (AggCollectSet.partialMerge
        (AggCollectSet.partialUpdate (⟨[none, none], 0⟩ : CSState Nat) 0 (some 1))
        0 1).liveMemSum = 0
    ∧ (AggCollectSet.partialUpdate (⟨[none, none], 0⟩ : CSState Nat) 0
        (some 1)).memUsed
      = (AggCollectSet.partialUpdate (⟨[none, none], 0⟩ : CSState Nat) 0
        (some 1)).liveMemSum := by
  refine ⟨by decide, by decide, by decide⟩

/-- Claim C5: evaluating the code at the failing input.  The duplicate inputs
2, 2 go into row 0 and nothing goes into row 1; combining via
partial_merge(row 0, row 1) drops the container of row 0 (catch-all arm), so
final_merge returns the null list where the claim requires the distinct
non-null input set, namely the single element 2. -/
theorem collect_set_distinct_bug_eval :
    (AggCollectSet.finalMerge
      (AggCollectSet.partialMerge
        (AggCollectSet.partialUpdate
          (AggCollectSet.partialUpdate (⟨[none, none], 0⟩ : CSState Nat) 0 (some 2))
          0 (some 2))
        0 1)
      0).1 = none
    ∧ (AggCollectSet.finalMerge
        (AggCollectSet.partialUpdate
          (AggCollectSet.partialUpdate (⟨[none, none], 0⟩ : CSState Nat) 0 (some 2))
          0 (some 2))
        0).1 = some [2] := by
  refine ⟨by decide, by decide⟩

/-- From memmgr/metrics.rs (absent from the provided sources; Modelled from
the spec, section 6): the monotonic SpillMetrics counters.  Times are in
nanoseconds. -/
structure SpillMetrics where
  memSpillCount : Nat
  memSpillSize : Nat
  memSpillIotimeNs : Nat
  diskSpillSize : Nat
  diskSpillIotimeNs : Nat
deriving Repr, DecidableEq

/-- From onheap_spill.rs, `impl Drop for OnHeapSpill` (lines 173-183): the
metric fold-in run when a handle is dropped.  mem_spill_count is always
incremented; the end-of-life disk-usage and IO-time queries to the external
manager may fail, and their results pass through `unwrap_or(0)`, so a failed
query contributes zero.  The function is total: teardown never fails. -/
def onHeapSpillDropMetrics (m : SpillMetrics) (usage iot : Except Unit Nat) :
    SpillMetrics :=
  { m with
    memSpillCount := m.memSpillCount + 1
    diskSpillSize := m.diskSpillSize + usage.toOption.getD 0
    diskSpillIotimeNs := m.diskSpillIotimeNs + iot.toOption.getD 0 }

/-- Claim C7: releasing an OnHeapSpill never fails because of its end-of-life
reporting queries.  When both queries fail, the drop still completes (the
fold-in is a total function) and the disk-spill contributions default to
zero; when they succeed their values are folded into the disk-spill-size and
disk-spill-iotime counters.  mem_spill_count is incremented either way. -/
theorem onheap_release_tolerates_query_failures (m : SpillMetrics) (u t : Nat) :
    onHeapSpillDropMetrics m (Except.error ()) (Except.error ())
      = { m with memSpillCount := m.memSpillCount + 1 }
    ∧ onHeapSpillDropMetrics m (Except.ok u) (Except.ok t)
      = { m with
          memSpillCount := m.memSpillCount + 1
          diskSpillSize := m.diskSpillSize + u
          diskSpillIotimeNs := m.diskSpillIotimeNs + t } :=
  ⟨rfl, rfl⟩

/-- From onheap_spill.rs, `FileSpill`: a temporary file.  `File::try_clone`
hands every reader and writer a handle onto the same file description, so
`data` and the cursor `pos` are shared state. -/
structure FileState where
  data : List Nat
  pos : Nat
deriving Repr, DecidableEq

/-- Standard file-write semantics at the shared cursor: overwrite/extend at
`pos`, advancing it. -/
def fileWrite (st : FileState) (bytes : List Nat) : FileState :=
  { data := st.data.take st.pos ++ bytes ++ st.data.drop (st.pos + bytes.length),
    pos := st.pos + bytes.length }

/-- From onheap_spill.rs, `FileSpill::complete` (lines 55-60): sync the data
and rewind the shared cursor to the start. -/
def fileComplete (st : FileState) : FileState :=
  { st with pos := 0 }

/-- A reader draining the spill: sequential reads from the shared cursor
until end of data (the 64 KiB BufReader only changes call granularity), so
the bytes from `pos` on are returned and the shared cursor ends at the end of
the data. -/
def fileReadAll (st : FileState) : List Nat × FileState :=
  (st.data.drop st.pos, { st with pos := st.data.length })

/-- From onheap_spill.rs, `get_buf_writer`: a BufWriter with a fixed 64 KiB
buffer in front of the backing writer. -/
def bufWriterCap : Nat := 65536

/-- One byte through the BufWriter: buffered until the buffer reaches the
64 KiB capacity, at which point the buffer is written through. -/
def bufStep (writeFn : S → List Nat → S) (p : S × List Nat) (b : Nat) :
    S × List Nat :=
  let buf2 := p.2 ++ [b]
  if bufWriterCap ≤ buf2.length then (writeFn p.1 buf2, [])
  else (p.1, buf2)

/-- Feed a whole byte sequence through a fresh BufWriter over the backing
writer `writeFn`, then flush the remaining buffer when the writer is
dropped. -/
def bufferedWriteAll (writeFn : S → List Nat → S) (st : S) (bytes : List Nat) : S :=
  let r := bytes.foldl (bufStep writeFn) (st, [])
  writeFn r.1 r.2

theorem bufferedWriteAll_fold (writeFn : S → List Nat → S) (proj : S → List Nat)
    (P : S → Prop)
    (hw : ∀ s bytes, P s → proj (writeFn s bytes) = proj s ++ bytes ∧ P (writeFn s bytes))
    (bytes : List Nat) :
    ∀ (s : S) (buf : List Nat), P s →
      proj (writeFn (bytes.foldl (bufStep writeFn) (s, buf)).1
                    (bytes.foldl (bufStep writeFn) (s, buf)).2)
        = proj s ++ buf ++ bytes := by
  induction bytes with
  | nil =>
    intro s buf hP
    simpa using (hw s buf hP).1
  | cons b bs ih =>
    intro s buf hP
    simp only [List.foldl_cons, bufStep]
    by_cases hc : bufWriterCap ≤ (buf ++ [b]).length
    · simp only [hc, if_pos]
      rw [ih (writeFn s (buf ++ [b])) [] (hw s (buf ++ [b]) hP).2]
      rw [(hw s (buf ++ [b]) hP).1]
      simp
    · simp only [hc, if_neg, not_false_iff]
      rw [ih s (buf ++ [b]) hP]
      simp

theorem bufferedWriteAll_proj (writeFn : S → List Nat → S) (proj : S → List Nat)
    (P : S → Prop)
    (hw : ∀ s bytes, P s → proj (writeFn s bytes) = proj s ++ bytes ∧ P (writeFn s bytes))
    (bytes : List Nat) (s : S) (hP : P s) :
    proj (bufferedWriteAll writeFn s bytes) = proj s ++ bytes := by
  have h := bufferedWriteAll_fold writeFn proj P hw bytes s [] hP
  simpa [bufferedWriteAll] using h

theorem fileWrite_append (s : FileState) (bytes : List Nat)
    (h : s.pos = s.data.length) :
    (fileWrite s bytes).data = s.data ++ bytes
    ∧ (fileWrite s bytes).pos = (fileWrite s bytes).data.length := by
  constructor
  · simp [fileWrite, h, List.drop_eq_nil_of_le]
  · simp [fileWrite, h, List.drop_eq_nil_of_le]

/-- From onheap_spill.rs, `OnHeapSpill` backed by the external manager.  The
manager holds the bytes of each spill id together with one read cursor: the
`readSpill(spill_id, buf)` primitive carries no offset and no reader
identity, so the cursor is manager-side state shared by every handle cloned
from the spill (Modelled from the spec, six primitive operations, with the
cursor placement forced by the call signatures in onheap_spill.rs). -/
structure HsmSpillState where
  data : List Nat
  cursor : Nat
deriving Repr, DecidableEq

/-- Modelled from the spec: the write primitive appends the byte range. -/
def hsmWriteSpill (st : HsmSpillState) (bytes : List Nat) : HsmSpillState :=
  { st with data := st.data ++ bytes }

/-- Modelled from the spec: `completeSpill` finalizes the write phase and
resets the read cursor to the start. -/
def hsmCompleteSpill (st : HsmSpillState) : HsmSpillState :=
  { st with cursor := 0 }

/-- A reader draining the managed spill through `readSpill` calls: returns
the bytes from the shared cursor on, leaving the cursor at the end. -/
def hsmReadAll (st : HsmSpillState) : List Nat × HsmSpillState :=
  (st.data.drop st.cursor, { st with cursor := st.data.length })

/-- Claim C6 (amended): the SpillStore round-trip holds for one reader per
completion, on both backends and for every byte sequence B — in particular
for B empty and for B longer than the 64 KiB buffer: writing B through the
buffered writer, completing, then draining a reader returns exactly B. -/
theorem spill_single_reader_roundtrip (B : List Nat) :
    (fileReadAll (fileComplete
      (bufferedWriteAll fileWrite (⟨[], 0⟩ : FileState) B))).1 = B
    ∧ (hsmReadAll (hsmCompleteSpill
      (bufferedWriteAll hsmWriteSpill (⟨[], 0⟩ : HsmSpillState) B))).1 = B := by
  constructor
  · have h := bufferedWriteAll_proj fileWrite FileState.data
      (fun s => s.pos = s.data.length) (fun s bytes hp => fileWrite_append s bytes hp)
      B ⟨[], 0⟩ rfl
    simp only [fileReadAll, fileComplete]
    rw [h]
    simp
  · have h := bufferedWriteAll_proj hsmWriteSpill HsmSpillState.data
      (fun _ => True) (fun s bytes _ => ⟨rfl, trivial⟩) B ⟨[], 0⟩ trivial
    simp only [hsmReadAll, hsmCompleteSpill]
    rw [h]
    simp

/-- Claim C6, counterexample: readers share the spill read cursor, so two
independent readers opened after a single completion do not each return the
full sequence.  With B = [1] on the disk-file backend, the first reader
returns [1] and a second reader opened afterwards returns [], not [1]. -/
theorem spill_two_readers_counterexample :
    (fileReadAll (fileComplete
      (bufferedWriteAll fileWrite (⟨[], 0⟩ : FileState) [1]))).1 = [1]
    ∧ (fileReadAll (fileReadAll (fileComplete
      (bufferedWriteAll fileWrite (⟨[], 0⟩ : FileState) [1]))).2).1 = []
    ∧ (fileReadAll (fileReadAll (fileComplete
      (bufferedWriteAll fileWrite (⟨[], 0⟩ : FileState) [1]))).2).1 ≠ [1] := by
  refine ⟨by decide, by decide, by decide⟩

/-- From onheap_spill.rs: the observable state of one managed spill and its
handles.  `OnHeapSpill` is a pair (Arc of RawOnHeapSpill, metrics);
`get_buf_reader` and `get_buf_writer` (lines 133-141) wrap a clone of the
handle, so `refcount` counts the live clones; `releases` counts the
`releaseSpill` calls made by `impl Drop for RawOnHeapSpill` (lines 190-195),
which runs only when the last Arc clone is dropped. -/
structure OnHeapHandleState where
  refcount : Nat
  releases : Nat
  metrics : SpillMetrics
deriving Repr, DecidableEq

/-- From onheap_spill.rs, `get_buf_reader` / `get_buf_writer`: each opened
reader or writer clones the handle. -/
def onHeapOpenClones : Nat → OnHeapHandleState → OnHeapHandleState
  | 0, st => st
  | n + 1, st => onHeapOpenClones n { st with refcount := st.refcount + 1 }

/-- From onheap_spill.rs, `impl Drop for OnHeapSpill` then the Arc drop: the
metric fold-in runs for this clone (while the raw spill is still alive, since
the Arc field is dropped after the body), then the refcount falls and, when
it reaches zero, the raw spill is released exactly once. -/
def onHeapDropClone (st : OnHeapHandleState) (usage iot : Except Unit Nat) :
    OnHeapHandleState :=
  let rc := st.refcount - 1
  { refcount := rc,
    releases := st.releases + (if rc = 0 then 1 else 0),
    metrics := onHeapSpillDropMetrics st.metrics usage iot }

/-- Dropping every live clone in turn, each drop making its own end-of-life
usage and IO-time queries (one pair of query outcomes per clone). -/
def onHeapDropAll (st : OnHeapHandleState)
    (qs : List (Except Unit Nat × Except Unit Nat)) : OnHeapHandleState :=
  qs.foldl (fun s q => onHeapDropClone s q.1 q.2) st

theorem onHeapOpenClones_eq (n : Nat) :
    ∀ st : OnHeapHandleState,
      onHeapOpenClones n st = { st with refcount := st.refcount + n } := by
  induction n with
  | zero => intro st; rfl
  | succ k ih =>
    intro st
    show onHeapOpenClones k { st with refcount := st.refcount + 1 } = _
    rw [ih]
    have hr : st.refcount + 1 + k = st.refcount + (k + 1) := by omega
    simp [hr]

theorem onHeapDropAll_spec (qs : List (Except Unit Nat × Except Unit Nat)) :
    ∀ st : OnHeapHandleState, st.refcount = qs.length → qs ≠ [] →
      (onHeapDropAll st qs).refcount = 0
      ∧ (onHeapDropAll st qs).releases = st.releases + 1
      ∧ (onHeapDropAll st qs).metrics.memSpillCount
          = st.metrics.memSpillCount + qs.length
      ∧ (onHeapDropAll st qs).metrics.diskSpillSize
          = st.metrics.diskSpillSize + (qs.map (fun q => q.1.toOption.getD 0)).sum
      ∧ (onHeapDropAll st qs).metrics.diskSpillIotimeNs
          = st.metrics.diskSpillIotimeNs + (qs.map (fun q => q.2.toOption.getD 0)).sum
      ∧ (onHeapDropAll st qs).metrics.memSpillSize = st.metrics.memSpillSize := by
  induction qs with
  | nil => intro st _ hne; exact absurd rfl hne
  | cons q qs ih =>
    intro st hrc _
    simp only [List.length_cons] at hrc
    by_cases hq : qs = []
    · subst hq
      have hrc1 : st.refcount = 1 := by simpa using hrc
      simp [onHeapDropAll, onHeapDropClone, onHeapSpillDropMetrics, hrc1]
    · have hstep : (onHeapDropClone st q.1 q.2).refcount = qs.length := by
        simp [onHeapDropClone, hrc]
      have hnz : ¬ (st.refcount - 1 = 0) := by
        have : qs.length ≠ 0 := fun h => hq (List.eq_nil_of_length_eq_zero h)
        omega
      have h := ih (onHeapDropClone st q.1 q.2) hstep hq
      have hdrop : onHeapDropAll st (q :: qs)
          = onHeapDropAll (onHeapDropClone st q.1 q.2) qs := rfl
      refine ⟨?_, ?_, ?_, ?_, ?_, ?_⟩
      · rw [hdrop]; exact h.1
      · rw [hdrop, h.2.1]
        simp [onHeapDropClone, hnz]
      · rw [hdrop, h.2.2.1]
        simp only [onHeapDropClone, onHeapSpillDropMetrics, List.length_cons]
        omega
      · rw [hdrop, h.2.2.2.1]
        simp only [onHeapDropClone, onHeapSpillDropMetrics, List.map_cons, List.sum_cons]
        omega
      · rw [hdrop, h.2.2.2.2.1]
        simp only [onHeapDropClone, onHeapSpillDropMetrics, List.map_cons, List.sum_cons]
        omega
      · rw [hdrop, h.2.2.2.2.2]
        simp [onHeapDropClone, onHeapSpillDropMetrics]

/-- Claim C10: every reader and writer obtained from get_buf_reader /
get_buf_writer is a clone of the spill handle whose drop runs the end-of-life
metric fold-in.  Opening n readers/writers on a fresh spill (refcount 1) and
then dropping all n + 1 clones increments memSpillCount by n + 1, adds each
query result for the current disk usage and IO time (up to n + 1 additions,
failed queries contributing zero), never changes memSpillSize, and releases
the backing resource exactly once — at the drop of the last clone. -/
theorem onheap_clone_drop_metrics (m : SpillMetrics) (n : Nat)
    (qs : List (Except Unit Nat × Except Unit Nat)) (h : qs.length = n + 1) :
    (onHeapDropAll (onHeapOpenClones n ⟨1, 0, m⟩) qs).refcount = 0
    ∧ (onHeapDropAll (onHeapOpenClones n ⟨1, 0, m⟩) qs).releases = 1
    ∧ (onHeapDropAll (onHeapOpenClones n ⟨1, 0, m⟩) qs).metrics.memSpillCount
        = m.memSpillCount + (n + 1)
    ∧ (onHeapDropAll (onHeapOpenClones n ⟨1, 0, m⟩) qs).metrics.diskSpillSize
        = m.diskSpillSize + (qs.map (fun q => q.1.toOption.getD 0)).sum
    ∧ (onHeapDropAll (onHeapOpenClones n ⟨1, 0, m⟩) qs).metrics.diskSpillIotimeNs
        = m.diskSpillIotimeNs + (qs.map (fun q => q.2.toOption.getD 0)).sum := by
  have hne : qs ≠ [] := by
    intro hq; rw [hq] at h; exact absurd h.symm (Nat.succ_ne_zero n)
  rw [onHeapOpenClones_eq n ⟨1, 0, m⟩]
  have hrc : (OnHeapHandleState.mk (1 + n) 0 m).refcount = qs.length := by
    simp [h]; omega
  have h2 := onHeapDropAll_spec qs ⟨1 + n, 0, m⟩ hrc hne
  refine ⟨h2.1, h2.2.1, ?_, h2.2.2.2.1, h2.2.2.2.2.1⟩
  rw [h2.2.2.1, h]

/-- Claim C10, witness: one spill, two opened readers/writers (three clones in
all), the first drop with successful queries (usage 10, IO time 3), the
second and third with failing queries. -/
theorem onheap_clone_drop_metrics_witness :
    (onHeapDropAll (onHeapOpenClones 2 ⟨1, 0, ⟨0, 0, 0, 0, 0⟩⟩)
      [(Except.ok 10, Except.ok 3), (Except.error (), Except.error ()),
       (Except.error (), Except.error ())]).releases = 1
    ∧ (onHeapDropAll (onHeapOpenClones 2 ⟨1, 0, ⟨0, 0, 0, 0, 0⟩⟩)
      [(Except.ok 10, Except.ok 3), (Except.error (), Except.error ()),
       (Except.error (), Except.error ())]).metrics.memSpillCount = 0 + (2 + 1) :=
  ⟨(onheap_clone_drop_metrics ⟨0, 0, 0, 0, 0⟩ 2
      [(Except.ok 10, Except.ok 3), (Except.error (), Except.error ()),
       (Except.error (), Except.error ())] rfl).2.1,
   (onheap_clone_drop_metrics ⟨0, 0, 0, 0, 0⟩ 2
      [(Except.ok 10, Except.ok 3), (Except.error (), Except.error ()),
       (Except.error (), Except.error ())] rfl).2.2.1⟩

/-- A fragment of the arrow DataType enumeration, enough to distinguish
argument and output types of the three aggregates. -/
inductive DataType where
  | nullType
  | booleanType
  | int64
  | utf8
  | listOf : DataType → DataType
deriving Repr, DecidableEq

/-- From agg/acc.rs (absent from the provided sources; Modelled from the
spec): the initial value and kind of one accumulator slot.  `scalarNull dt`
is the typed null `ScalarValue::try_from(&dt)`; the untyped
`ScalarValue::Null` is `scalarNull nullType`. -/
inductive AccumInitialValue where
  | scalarNull : DataType → AccumInitialValue
  | dynList : DataType → AccumInitialValue
  | dynSet : DataType → AccumInitialValue
deriving Repr, DecidableEq

/-- From collect_list.rs: the AggCollectList descriptor — child expression,
output and argument types, initial accumulator values, and the assigned
accumulator state value address.  `E` is the opaque physical-expression
type. -/
structure AggCollectListDesc (E : Type) where
  child : E
  dataType : DataType
  argType : DataType
  accumInitial : List AccumInitialValue
  accumStateValAddr : Nat
deriving Repr, DecidableEq

/-- From collect_list.rs, `AggCollectList::try_new` (lines 55-68): the
accumulator address starts at the default. -/
def AggCollectListDesc.tryNew (child : E) (dt argTy : DataType) :
    AggCollectListDesc E :=
  { child, dataType := dt, argType := argTy,
    accumInitial := [.dynList argTy], accumStateValAddr := 0 }

/-- From collect_list.rs, `set_accum_state_val_addrs` (lines 43-45): the
address is assigned after construction by the hosting operator. -/
def AggCollectListDesc.setAddrs (d : AggCollectListDesc E) (addrs : List Nat) :
    AggCollectListDesc E :=
  { d with accumStateValAddr := addrs.getD 0 0 }

/-- From collect_list.rs, `AggCollectList::with_new_exprs` (lines 86-92):
rebuild through try_new from the first new expression and the stored output
and argument types. -/
def AggCollectListDesc.withNewExprs (d : AggCollectListDesc E) (e : E) :
    AggCollectListDesc E :=
  AggCollectListDesc.tryNew e d.dataType d.argType

/-- From collect_list.rs, line 98: CollectList is not nullable. -/
def AggCollectListDesc.nullable (_ : AggCollectListDesc E) : Bool := false

/-- From collect_set.rs: the AggCollectSet descriptor and its operations
(try_new lines 58-71, set_accum_state_val_addrs lines 45-49, with_new_exprs
lines 89-95, nullable line 101), identical in shape to CollectList except
that the initial slot is a DynSet. -/
structure AggCollectSetDesc (E : Type) where
  child : E
  dataType : DataType
  argType : DataType
  accumInitial : List AccumInitialValue
  accumStateValAddr : Nat
deriving Repr, DecidableEq

def AggCollectSetDesc.tryNew (child : E) (dt argTy : DataType) :
    AggCollectSetDesc E :=
  { child, dataType := dt, argType := argTy,
    accumInitial := [.dynSet argTy], accumStateValAddr := 0 }

def AggCollectSetDesc.setAddrs (d : AggCollectSetDesc E) (addrs : List Nat) :
    AggCollectSetDesc E :=
  { d with accumStateValAddr := addrs.getD 0 0 }

def AggCollectSetDesc.withNewExprs (d : AggCollectSetDesc E) (e : E) :
    AggCollectSetDesc E :=
  AggCollectSetDesc.tryNew e d.dataType d.argType

def AggCollectSetDesc.nullable (_ : AggCollectSetDesc E) : Bool := false

/-- From first.rs: the AggFirst descriptor — child expression, output type,
the two initial slot values ([typed null for the value slot, untyped null
for the touched slot], lines 64-67), and the two assigned addresses. -/
structure AggFirstDesc (E : Type) where
  child : E
  dataType : DataType
  accumsInitial : List AccumInitialValue
  addrValue : Nat
  addrValid : Nat
deriving Repr, DecidableEq

/-- From first.rs, `AggFirst::try_new` (lines 63-80): both addresses start at
the default. -/
def AggFirstDesc.tryNew (child : E) (dt : DataType) : AggFirstDesc E :=
  { child, dataType := dt,
    accumsInitial := [.scalarNull dt, .scalarNull .nullType],
    addrValue := 0, addrValid := 0 }

/-- From first.rs, `set_accum_state_val_addrs` (lines 50-53). -/
def AggFirstDesc.setAddrs (d : AggFirstDesc E) (addrs : List Nat) :
    AggFirstDesc E :=
  { d with addrValue := addrs.getD 0 0, addrValid := addrs.getD 1 0 }

/-- From first.rs, `AggFirst::with_new_exprs` (lines 106-111). -/
def AggFirstDesc.withNewExprs (d : AggFirstDesc E) (e : E) : AggFirstDesc E :=
  AggFirstDesc.tryNew e d.dataType

/-- From first.rs, line 117: First is nullable. -/
def AggFirstDesc.nullable (_ : AggFirstDesc E) : Bool := true

/-- Claim C9 (amended): for each of the three aggregates, with_new_exprs
rebinds the input expression and preserves the output data type, the nullable
flag, the argument type and the initial accumulator values — but the
accumulator value addresses of the returned instance are reset to the
default (0) by try_new, to be assigned afresh by the hosting operator; they
are not the stable offsets previously assigned to the original. -/
theorem with_new_exprs_preserves_config (E : Type) (c e : E)
    (dt argTy : DataType) (addrs : List Nat) :
    (((AggCollectListDesc.tryNew c dt argTy).setAddrs addrs).withNewExprs e
      = { child := e, dataType := dt, argType := argTy,
          accumInitial := [.dynList argTy], accumStateValAddr := 0 })
    ∧ ((((AggCollectListDesc.tryNew c dt argTy).setAddrs addrs).withNewExprs e).nullable
      = ((AggCollectListDesc.tryNew c dt argTy).setAddrs addrs).nullable)
    ∧ (((AggCollectSetDesc.tryNew c dt argTy).setAddrs addrs).withNewExprs e
      = { child := e, dataType := dt, argType := argTy,
          accumInitial := [.dynSet argTy], accumStateValAddr := 0 })
    ∧ ((((AggCollectSetDesc.tryNew c dt argTy).setAddrs addrs).withNewExprs e).nullable
      = ((AggCollectSetDesc.tryNew c dt argTy).setAddrs addrs).nullable)
    ∧ (((AggFirstDesc.tryNew c dt).setAddrs addrs).withNewExprs e
      = { child := e, dataType := dt,
          accumsInitial := [.scalarNull dt, .scalarNull .nullType],
          addrValue := 0, addrValid := 0 })
    ∧ ((((AggFirstDesc.tryNew c dt).setAddrs addrs).withNewExprs e).nullable
      = ((AggFirstDesc.tryNew c dt).setAddrs addrs).nullable) :=
  ⟨rfl, rfl, rfl, rfl, rfl, rfl⟩

/-- Claim C9, counterexample: assign address 5 to a CollectList descriptor,
then rebind the expression; the returned instance carries the default address
0, not the stable offset 5 of the original, so the addresses are not the
same. -/
theorem with_new_exprs_addr_counterexample :
    (((AggCollectListDesc.tryNew (0 : Nat) .int64 .int64).setAddrs [5]).withNewExprs
      1).accumStateValAddr = 0
    ∧ ((AggCollectListDesc.tryNew (0 : Nat) .int64 .int64).setAddrs
      [5]).accumStateValAddr = 5
    ∧ (((AggCollectListDesc.tryNew (0 : Nat) .int64 .int64).setAddrs [5]).withNewExprs
        1).accumStateValAddr
      ≠ ((AggCollectListDesc.tryNew (0 : Nat) .int64 .int64).setAddrs
        [5]).accumStateValAddr := by
  refine ⟨rfl, rfl, by decide⟩
